import Mathlib

/-!
Verification of the pi-mono extension plugins.

This file embeds the two TypeScript extension modules of the repository,
`src/extensions/approval-mode.ts` and `src/extensions/runtime-uptime.ts`,
as executable Lean definitions and proves the specification's testable
properties about them.

Modelling conventions:
* JavaScript runtime values reaching the plugins from the host (tool
  inputs, session-entry payloads) are modelled by the JSON value type
  `JVal`; a field that is absent or not a string is modelled as `none`
  where the code tests `typeof x === "string"` / `data?.mode === ...`,
  since no such value can compare `===`-equal to a string literal.
* The in-memory `mode` variable is modelled as `Option String` (not a
  Lean enumeration), because at the TypeScript runtime the annotation
  `ApprovalMode` is erased and the value restored from session history
  arrives through an unchecked cast; which strings can actually occur is
  exactly what the invariant claims are about.
* Host callbacks (`ctx.ui.confirm`, `ctx.ui.setStatus`, `ctx.ui.notify`,
  `pi.appendEntry`) are external; a handler run is modelled as a pure
  function from the pre-state and the oracle answers of its confirmation
  prompts to the post-state, the ordered list of host `Effect`s it
  performs, and its returned instruction.
-/

/-- JSON-representable runtime values, used for tool inputs and entry payloads. -/
inductive JVal where
  | str (s : String)
  | num (n : Int)
  | bool (b : Bool)
  | null
  | obj (fields : List (String × JVal))
  | arr (items : List JVal)

/-- Lookup of a field in a JSON object (JavaScript property access `input.k`). -/
def jget (fields : List (String × JVal)) (k : String) : Option JVal :=
  (fields.find? (fun p => p.1 = k)).map (fun p => p.2)

/-- Hexadecimal digit character, as produced by JavaScript string escapes. -/
def hexDigit (n : Nat) : Char :=
  if n < 10 then Char.ofNat (48 + n) else Char.ofNat (97 + (n - 10))

/-- Escape of one character inside a JSON string literal, per `JSON.stringify`. -/
def jsonEscapeChar (c : Char) : String :=
  if c = '"' then "\\\""
  else if c = '\\' then "\\\\"
  else if c = '\n' then "\\n"
  else if c = '\r' then "\\r"
  else if c = '\t' then "\\t"
  else if c = '\x08' then "\\b"
  else if c = '\x0c' then "\\f"
  else if c.toNat < 32 then
    "\\u00" ++ String.singleton (hexDigit (c.toNat / 16)) ++ String.singleton (hexDigit (c.toNat % 16))
  else String.singleton c

/-- JSON string literal for `s`, per `JSON.stringify`. -/
def jsonQuote (s : String) : String :=
  "\"" ++ String.join (s.data.map jsonEscapeChar) ++ "\""

/-- Indentation produced by `JSON.stringify(x, null, 2)` at nesting depth `ind`. -/
def jsonIndent (ind : Nat) : String :=
  String.mk (List.replicate (2 * ind) ' ')

mutual

/-- Rendering of a JSON value by `JSON.stringify(x, null, 2)` at depth `ind`. -/
def jsonStringifyVal (ind : Nat) : JVal → String
  | JVal.str s => jsonQuote s
  | JVal.num n => toString n
  | JVal.bool b => if b then "true" else "false"
  | JVal.null => "null"
  | JVal.obj [] => "\x7b\x7d"
  | JVal.obj (f :: fs) =>
      "\x7b\n" ++ jsonStringifyFields (ind + 1) f fs ++ "\n" ++ jsonIndent ind ++ "\x7d"
  | JVal.arr [] => "[]"
  | JVal.arr (x :: xs) =>
      "[\n" ++ jsonStringifyItems (ind + 1) x xs ++ "\n" ++ jsonIndent ind ++ "]"
termination_by v => sizeOf v

/-- Comma-and-newline separated object fields of `JSON.stringify(x, null, 2)`. -/
def jsonStringifyFields (ind : Nat) : String × JVal → List (String × JVal) → String
  | (k, v), [] => jsonIndent ind ++ jsonQuote k ++ ": " ++ jsonStringifyVal ind v
  | (k, v), g :: gs =>
      jsonIndent ind ++ jsonQuote k ++ ": " ++ jsonStringifyVal ind v ++ ",\n" ++
        jsonStringifyFields ind g gs
termination_by f fs => sizeOf f + sizeOf fs

/-- Comma-and-newline separated array items of `JSON.stringify(x, null, 2)`. -/
def jsonStringifyItems (ind : Nat) : JVal → List JVal → String
  | x, [] => jsonIndent ind ++ jsonStringifyVal ind x
  | x, y :: ys =>
      jsonIndent ind ++ jsonStringifyVal ind x ++ ",\n" ++ jsonStringifyItems ind y ys
termination_by x xs => sizeOf x + sizeOf xs

end

/-- Top-level `JSON.stringify(input, null, 2)` on a tool-input record. -/
def jsonStringify (input : List (String × JVal)) : String :=
  jsonStringifyVal 0 (JVal.obj input)

/-- Extraction of a string-typed field: `typeof input.k === "string" ? input.k : fallback`. -/
def stringField (input : List (String × JVal)) (k fallback : String) : String :=
  match jget input k with
  | some (JVal.str s) => s
  | _ => fallback

/-- Embedding of `formatToolInput` from `src/extensions/approval-mode.ts`:
a designated field for each known tool name, JSON rendering otherwise. -/
def formatToolInput (toolName : String) (input : List (String × JVal)) : String :=
  if toolName = "bash" then
    "command: " ++ stringField input "command" "(missing command)"
  else if toolName = "write" then
    "filePath: " ++ stringField input "filePath" "(missing filePath)"
  else if toolName = "edit" then
    "filePath: " ++ stringField input "filePath" "(missing filePath)"
  else if toolName = "read" then
    "filePath: " ++ stringField input "filePath" "(missing filePath)"
  else jsonStringify input

/-- JavaScript `s.padStart(2, "0")`. -/
def padStart2 (s : String) : String :=
  if 2 ≤ s.length then s else String.mk (List.replicate (2 - s.length) '0') ++ s

/-- Embedding of `formatDuration` from `src/extensions/runtime-uptime.ts`.
`Math.max(0, Math.floor(ms / 1000))` is `(Int.fdiv ms 1000).toNat`: `Int.fdiv`
is floor division and `Int.toNat` clamps negative values to zero. -/
def formatDuration (ms : Int) : String :=
  let totalSeconds : Nat := (Int.fdiv ms 1000).toNat
  let hours := totalSeconds / 3600
  let minutes := (totalSeconds % 3600) / 60
  let seconds := totalSeconds % 60
  padStart2 (toString hours) ++ ":" ++ padStart2 (toString minutes) ++ ":" ++
    padStart2 (toString seconds)

/-- Host UI styling `ctx.ui.theme.fg(style, text)`. Modelled from the spec:
the host "formats text with named semantic styles"; its implementation is
external to this repository, so it is modelled as an injective tagging of
the text with the style name. -/
def themeFg (style text : String) : String :=
  "[" ++ style ++ "] " ++ text

/-- Discriminator `STATE_ENTRY_TYPE` for persisted policy-change entries. -/
def STATE_ENTRY_TYPE : String := "approval-mode-state"

/-- Payload of a session-history entry as seen through the unchecked cast
`entry.data as ApprovalModeState | undefined`: `mode` is `some s` exactly
when the payload has a string-valued `mode` field (a missing or non-string
field can never be `===`-equal to a mode literal). -/
structure EntryData where
  mode : Option String
  deriving DecidableEq

/-- Session-history entry: a type discriminator, a custom-type tag, and an
optional payload. -/
structure Entry where
  type : String
  customType : String
  data : Option EntryData
  deriving DecidableEq

/-- Observable host interactions performed by a handler, in order. -/
inductive Effect where
  | confirmPrompt (title body : String)
  | setStatus (key : String) (text : Option String)
  | notify (message level : String)
  | appendEntry (customType : String) (mode : String)
  deriving DecidableEq

/-- Embedding of `modeStatusText`: status-bar text for the current policy. -/
def modeStatusText : Option String → Option String
  | none => none
  | some m =>
    if m = "allow-all" then some (themeFg "dim" "approval: allow all")
    else some (themeFg "warning" "approval: confirm each tool")

/-- Embedding of the scan loop of `restoreModeFromBranch`: walk the branch in
order, remembering the mode of every custom policy-change entry whose payload
mode is exactly one of the two literals, last write winning. -/
def scanBranch : List Entry → Option String → Option String
  | [], restored => restored
  | e :: rest, restored =>
    if e.type ≠ "custom" ∨ e.customType ≠ STATE_ENTRY_TYPE then
      scanBranch rest restored
    else
      let m := e.data.bind EntryData.mode
      if m = some "allow-all" ∨ m = some "approve-all" then scanBranch rest m
      else scanBranch rest restored

/-- Embedding of `restoreModeFromBranch`: `mode = restored ?? mode`, then an
unconditional status refresh. -/
def restoreModeFromBranch (branch : List Entry) (mode : Option String) :
    Option String × List Effect :=
  let restored := scanBranch branch none
  let newMode := restored.orElse (fun _ => mode)
  (newMode, [Effect.setStatus "approval-mode" (modeStatusText newMode)])

/-- Embedding of `persistMode`: append a policy-change entry unless unset. -/
def persistMode : Option String → List Effect
  | none => []
  | some m => [Effect.appendEntry STATE_ENTRY_TYPE m]

/-- Body of the binary mode-selection prompt. -/
def permissionPromptBody : String :=
  "Enable everything (no per-tool confirmations)?\n\nYes = allow all\nNo = ask for each tool call"

/-- Embedding of `ensureModeSelected`. `confirmAnswer` is the oracle answer of
the confirmation prompt, consulted only when the prompt is actually shown. -/
def ensureModeSelected (hasUI confirmAnswer : Bool) (mode : Option String) :
    Option String × List Effect :=
  match mode with
  | some _ => (mode, [Effect.setStatus "approval-mode" (modeStatusText mode)])
  | none =>
    if ¬hasUI then
      let newMode := some "approve-all"
      (newMode, persistMode newMode)
    else
      let newMode := some (if confirmAnswer then "allow-all" else "approve-all")
      (newMode,
        Effect.confirmPrompt "Permission mode" permissionPromptBody ::
          (persistMode newMode ++ [Effect.setStatus "approval-mode" (modeStatusText newMode)]))

/-- Tool-call event: tool name and input record. -/
structure ToolCallEvent where
  toolName : String
  input : List (String × JVal)

/-- Blocking instruction returned by the tool-call handler. -/
structure ToolCallResponse where
  block : Bool
  reason : String
  deriving DecidableEq

/-- Fixed reason used when approve-all blocks a call without a UI. -/
def noUIBlockReason : String :=
  "Tool call blocked (approve-all mode requires interactive confirmation)"

/-- Reason used when the user declines a tool-call confirmation. -/
def userBlockReason (toolName : String) : String :=
  "Blocked by user (tool: " ++ toolName ++ ")"

/-- Body of the per-tool-call confirmation prompt. -/
def approvePromptBody (ev : ToolCallEvent) : String :=
  "Tool: " ++ ev.toolName ++ "\n" ++ formatToolInput ev.toolName ev.input

/-- Embedding of the `tool_call` handler. `selectAnswer` answers the lazy
mode-selection prompt (when shown), `approveAnswer` the per-call prompt. -/
def toolCallHandler (hasUI selectAnswer approveAnswer : Bool) (ev : ToolCallEvent)
    (mode : Option String) : Option String × List Effect × Option ToolCallResponse :=
  let resolved := if mode = none then ensureModeSelected hasUI selectAnswer mode else (mode, [])
  let mode1 := resolved.1
  let effs1 := resolved.2
  if mode1 ≠ some "approve-all" then (mode1, effs1, none)
  else if ¬hasUI then (mode1, effs1, some ⟨true, noUIBlockReason⟩)
  else if ¬approveAnswer then
    (mode1, effs1 ++ [Effect.confirmPrompt "Approve tool call?" (approvePromptBody ev)],
      some ⟨true, userBlockReason ev.toolName⟩)
  else
    (mode1, effs1 ++ [Effect.confirmPrompt "Approve tool call?" (approvePromptBody ev)], none)

/-- Embedding of the `approval-mode` command handler. -/
def approvalModeCommand (hasUI confirmAnswer : Bool) (mode : Option String) :
    Option String × List Effect :=
  if ¬hasUI then (mode, [Effect.notify "No interactive UI available" "warning"])
  else
    let modeStr := if confirmAnswer then "allow-all" else "approve-all"
    let newMode := some modeStr
    (newMode,
      Effect.confirmPrompt "Permission mode" permissionPromptBody ::
        (persistMode newMode ++
          [Effect.setStatus "approval-mode" (modeStatusText newMode),
           Effect.notify ("Permission mode set to " ++ modeStr) "info"]))

/-- Embedding of the `session_start` handler: restore, then re-render the
status when a mode is set. -/
def onSessionStart (branch : List Entry) (mode : Option String) :
    Option String × List Effect :=
  let r := restoreModeFromBranch branch mode
  if r.1.isSome then (r.1, r.2 ++ [Effect.setStatus "approval-mode" (modeStatusText r.1)])
  else r

/-- Embedding of the `input` handler (its `action: continue` result is not
modelled since it is constant). -/
def onInput (hasUI confirmAnswer : Bool) (mode : Option String) :
    Option String × List Effect :=
  if mode = none then ensureModeSelected hasUI confirmAnswer mode else (mode, [])

/-- One dispatched event or command of the approval-gate plugin, together
with the oracle answers of any confirmation prompts it may show. -/
inductive GateOp where
  | sessionStart (branch : List Entry)
  | sessionTree (branch : List Entry)
  | sessionFork (branch : List Entry)
  | inputEvent (confirmAnswer : Bool)
  | toolCall (ev : ToolCallEvent) (selectAnswer approveAnswer : Bool)
  | approvalModeCmd (confirmAnswer : Bool)

/-- Unified step function of the approval gate: one handler run, returning
the new in-memory mode, the host effects, and the tool-call response. -/
def gateStep (hasUI : Bool) (op : GateOp) (mode : Option String) :
    Option String × List Effect × Option ToolCallResponse :=
  match op with
  | GateOp.sessionStart branch =>
      let r := onSessionStart branch mode
      (r.1, r.2, none)
  | GateOp.sessionTree branch =>
      let r := restoreModeFromBranch branch mode
      (r.1, r.2, none)
  | GateOp.sessionFork branch =>
      let r := restoreModeFromBranch branch mode
      (r.1, r.2, none)
  | GateOp.inputEvent a =>
      let r := onInput hasUI a mode
      (r.1, r.2, none)
  | GateOp.toolCall ev a1 a2 => toolCallHandler hasUI a1 a2 ev mode
  | GateOp.approvalModeCmd a =>
      let r := approvalModeCommand hasUI a mode
      (r.1, r.2, none)

/-- Specification-side reading of one entry: its policy value exactly when it
is a custom entry with the policy-change discriminator and a valid mode. -/
def entryPolicy (e : Entry) : Option String :=
  if e.type = "custom" ∧ e.customType = STATE_ENTRY_TYPE ∧
      (e.data.bind EntryData.mode = some "allow-all" ∨
        e.data.bind EntryData.mode = some "approve-all") then
    e.data.bind EntryData.mode
  else none

/-- Specification-side value: the policy of the last policy-change entry in
branch order, if any. -/
def lastPolicyMode (branch : List Entry) : Option String :=
  (branch.filterMap entryPolicy).getLast?

/-- The in-memory policy is unset or one of the two enumerated values. -/
def validPolicy (mode : Option String) : Prop :=
  mode = none ∨ mode = some "allow-all" ∨ mode = some "approve-all"

instance : DecidablePred validPolicy := fun m => by
  unfold validPolicy
  infer_instance

/-- A valid persisted allow-all policy-change entry, used in concrete runs. -/
def allowAllEntry : Entry :=
  ⟨"custom", STATE_ENTRY_TYPE, some ⟨some "allow-all"⟩⟩

/-- A valid persisted approve-all policy-change entry, used in concrete runs. -/
def approveAllEntry : Entry :=
  ⟨"custom", STATE_ENTRY_TYPE, some ⟨some "approve-all"⟩⟩

/-- State of the uptime reporter: the start timestamp captured once at plugin
initialization, the remembered interval-timer handle, the list of interval
timers currently armed at the host (in arming order, as `setInterval` and
`clearInterval` would leave them), and a fresh-handle counter. -/
structure UptimeState where
  startTimeMs : Int
  timer : Option Nat
  live : List Nat
  nextId : Nat
  deriving DecidableEq

/-- Embedding of `renderStatus`: the uptime status-bar fragment at clock
reading `now`. -/
def renderStatus (now startTimeMs : Int) : Effect :=
  Effect.setStatus "runtime-uptime"
    (some (themeFg "dim" ("uptime " ++ formatDuration (now - startTimeMs))))

/-- Embedding of `stopTimer`: `clearInterval` the remembered handle, if any. -/
def stopTimer (st : UptimeState) : UptimeState :=
  match st.timer with
  | none => st
  | some h => { st with timer := none, live := st.live.erase h }

/-- Embedding of `startTimer`: always stop the existing timer first, render
once, then arm a fresh interval timer. -/
def startTimer (now : Int) (st : UptimeState) : UptimeState × List Effect :=
  let st1 := stopTimer st
  ({ st1 with
      timer := some st1.nextId
      live := st1.live ++ [st1.nextId]
      nextId := st1.nextId + 1 },
    [renderStatus now st.startTimeMs])

/-- One dispatched event of the uptime plugin; `now` is the clock reading
`Date.now()` observed during the handler. -/
inductive UptimeEvent where
  | sessionStart (now : Int)
  | sessionSwitch (now : Int)
  | sessionShutdown
  | uptimeCommand (now : Int)

/-- Unified step function of the uptime reporter. -/
def uptimeStep : UptimeEvent → UptimeState → UptimeState × List Effect
  | UptimeEvent.sessionStart now, st => startTimer now st
  | UptimeEvent.sessionSwitch now, st => startTimer now st
  | UptimeEvent.sessionShutdown, st =>
      (stopTimer st, [Effect.setStatus "runtime-uptime" none])
  | UptimeEvent.uptimeCommand now, st =>
      (st,
        [Effect.notify ("pi runtime: " ++ formatDuration (now - st.startTimeMs)) "info",
          renderStatus now st.startTimeMs])

/-- Timer bookkeeping invariant: the interval timers armed at the host are
exactly the remembered handle (or none at all). -/
def timerInv (st : UptimeState) : Prop :=
  st.live = st.timer.toList

instance (st : UptimeState) : Decidable (timerInv st) := by
  unfold timerInv
  infer_instance

theorem getLast?_cons_orElse {α : Type} (a : α) (l : List α) :
    (a :: l).getLast? = (l.getLast?).orElse (fun _ => some a) := by
  induction l generalizing a with
  | nil => simp
  | cons b t ih =>
    rw [List.getLast?_cons_cons, ih b]
    cases h : t.getLast? <;> simp [Option.some_orElse', Option.none_orElse']

theorem scanBranch_cons (e : Entry) (rest : List Entry) (r : Option String) :
    scanBranch (e :: rest) r = scanBranch rest ((entryPolicy e).orElse (fun _ => r)) := by
  by_cases h1 : e.type = "custom"
  · by_cases h2 : e.customType = STATE_ENTRY_TYPE
    · by_cases h3 : e.data.bind EntryData.mode = some "allow-all" ∨
          e.data.bind EntryData.mode = some "approve-all"
      · have hcopy := h3
        rcases h3 with h | h <;>
          simp [scanBranch, entryPolicy, h1, h2, h, hcopy, Option.some_orElse']
      · simp [scanBranch, entryPolicy, h1, h2, h3, Option.none_orElse']
    · simp [scanBranch, entryPolicy, h1, h2, Option.none_orElse']
  · simp [scanBranch, entryPolicy, h1, Option.none_orElse']

theorem scanBranch_eq_lastPolicyMode (branch : List Entry) :
    ∀ r, scanBranch branch r = (lastPolicyMode branch).orElse (fun _ => r) := by
  induction branch with
  | nil => intro r; simp [scanBranch, lastPolicyMode, Option.none_orElse']
  | cons e rest ih =>
    intro r
    rw [scanBranch_cons, ih]
    cases hp : entryPolicy e with
    | none => simp [lastPolicyMode, List.filterMap_cons, hp, Option.none_orElse']
    | some m =>
      simp only [lastPolicyMode, List.filterMap_cons, hp, Option.some_orElse',
        getLast?_cons_orElse]
      cases hl : (rest.filterMap entryPolicy).getLast? <;>
        simp [Option.some_orElse', Option.none_orElse']

/-- C1: after the restore-policy-from-branch operation the in-memory policy
equals the policy value of the last custom policy-change entry (with a valid
mode payload) in branch order, and when no such entry exists an unset policy
remains unset. -/
theorem c1_restore_last_policy_wins (branch : List Entry) (mode : Option String) :
    (∀ m, lastPolicyMode branch = some m →
        (restoreModeFromBranch branch mode).1 = some m) ∧
      (lastPolicyMode branch = none → (restoreModeFromBranch branch none).1 = none) := by
  constructor
  · intro m h
    simp [restoreModeFromBranch, scanBranch_eq_lastPolicyMode, h, Option.some_orElse']
  · intro h
    simp [restoreModeFromBranch, scanBranch_eq_lastPolicyMode, h, Option.none_orElse']

theorem c1_restore_last_policy_wins_witness :
    (restoreModeFromBranch [allowAllEntry, approveAllEntry] none).1 = some "approve-all" ∧
      (restoreModeFromBranch [] none).1 = none :=
  ⟨(c1_restore_last_policy_wins [allowAllEntry, approveAllEntry] none).1 "approve-all"
      (by decide),
    (c1_restore_last_policy_wins [] none).2 (by decide)⟩

/-- C2: while the resolved policy is approve-all and no interactive UI is
available, every tool call is blocked and the reason is exactly the fixed
explanatory text (so in particular contains it); the same holds when the
policy is resolved lazily during the call, since the no-UI fallback resolves
to approve-all. -/
theorem c2_approve_all_no_ui_always_blocks (ev : ToolCallEvent) (a1 a2 : Bool) :
    (gateStep false (GateOp.toolCall ev a1 a2) (some "approve-all")).2.2 =
        some ⟨true, noUIBlockReason⟩ ∧
      (gateStep false (GateOp.toolCall ev a1 a2) none).2.2 =
        some ⟨true, noUIBlockReason⟩ := by
  constructor <;> simp [gateStep, toolCallHandler, ensureModeSelected]

/-- C3: while the resolved policy is approve-all and a UI is available, a
tool call is blocked iff the confirmation prompt resolves to a declination,
and in that case the reason is the declination text around the literal tool
name. -/
theorem c3_approve_all_ui_block_iff_declined (ev : ToolCallEvent) (a1 a2 : Bool) :
    (((gateStep true (GateOp.toolCall ev a1 a2) (some "approve-all")).2.2).isSome ↔
        a2 = false) ∧
      (a2 = false →
        (gateStep true (GateOp.toolCall ev a1 a2) (some "approve-all")).2.2 =
          some ⟨true, "Blocked by user (tool: " ++ ev.toolName ++ ")"⟩) := by
  cases a2 <;> simp [gateStep, toolCallHandler, userBlockReason]

theorem c3_approve_all_ui_block_iff_declined_witness :
    (gateStep true (GateOp.toolCall ⟨"bash", [("command", JVal.str "ls")]⟩ true false)
        (some "approve-all")).2.2 =
      some ⟨true, "Blocked by user (tool: " ++ "bash" ++ ")"⟩ :=
  (c3_approve_all_ui_block_iff_declined ⟨"bash", [("command", JVal.str "ls")]⟩ true false).2
    rfl

/-- C5: while the resolved policy is allow-all, the tool-call handler
performs no host effects at all (in particular it shows no confirmation
prompt) and returns no blocking instruction, with or without a UI. -/
theorem c5_allow_all_permits_silently (hasUI a1 a2 : Bool) (ev : ToolCallEvent) :
    gateStep hasUI (GateOp.toolCall ev a1 a2) (some "allow-all") =
      (some "allow-all", [], none) := by
  simp [gateStep, toolCallHandler]

/-- C4 counterexample: the claim that in a session with no UI a policy set by
any gate operation is never allow-all fails on branch restoration, which does
not consult UI availability: a session start over a branch holding a persisted
allow-all entry sets the in-memory policy to allow-all without any UI. -/
theorem c4_counterexample_no_ui_restore_allow_all :
    ¬ (∀ (op : GateOp) (mode : Option String) (m : String),
        (gateStep false op mode).1 = some m → m = "approve-all") := by
  intro h
  have hres : (gateStep false (GateOp.sessionStart [allowAllEntry]) none).1 =
      some "allow-all" := by decide
  have := h (GateOp.sessionStart [allowAllEntry]) none "allow-all" hres
  simp at this

/-- C4 amended: in a session with no UI, every gate operation other than a
branch restoration (session start, tree navigation, fork) either leaves the
policy unchanged or sets it to approve-all; only restoring persisted history
can introduce allow-all without a UI. -/
theorem c4_amended_no_ui_sets_only_approve_all (op : GateOp) (mode : Option String)
    (h : ∀ branch, op ≠ GateOp.sessionStart branch ∧ op ≠ GateOp.sessionTree branch ∧
      op ≠ GateOp.sessionFork branch) :
    (gateStep false op mode).1 = mode ∨ (gateStep false op mode).1 = some "approve-all" := by
  cases op with
  | sessionStart branch => exact absurd rfl (h branch).1
  | sessionTree branch => exact absurd rfl (h branch).2.1
  | sessionFork branch => exact absurd rfl (h branch).2.2
  | inputEvent a =>
    cases mode with
    | none => right; simp [gateStep, onInput, ensureModeSelected, persistMode]
    | some m => left; simp [gateStep, onInput]
  | toolCall ev a1 a2 =>
    cases mode with
    | none =>
      right
      simp [gateStep, toolCallHandler, ensureModeSelected, persistMode]
    | some m =>
      left
      by_cases hm : m = "approve-all" <;> simp [gateStep, toolCallHandler, hm]
  | approvalModeCmd a =>
    left
    simp [gateStep, approvalModeCommand]

theorem c4_amended_no_ui_sets_only_approve_all_witness :
    (gateStep false (GateOp.toolCall ⟨"bash", [("command", JVal.str "ls")]⟩ true true)
        none).1 = none ∨
      (gateStep false (GateOp.toolCall ⟨"bash", [("command", JVal.str "ls")]⟩ true true)
        none).1 = some "approve-all" :=
  c4_amended_no_ui_sets_only_approve_all
    (GateOp.toolCall ⟨"bash", [("command", JVal.str "ls")]⟩ true true) none
    (fun branch => by refine ⟨?_, ?_, ?_⟩ <;> intro hc <;> cases hc)

/-- C6: the approval-mode command with no UI performs exactly one warning
notification — the in-memory policy, the persisted history and the status
display are untouched; with a UI it always re-prompts regardless of the
existing policy, sets and persists the chosen policy, updates the status
display, and notifies the user of the new mode. -/
theorem c6_command_frame (mode : Option String) (answer : Bool) :
    gateStep false (GateOp.approvalModeCmd answer) mode =
        (mode, [Effect.notify "No interactive UI available" "warning"], none) ∧
      gateStep true (GateOp.approvalModeCmd answer) mode =
        (some (if answer then "allow-all" else "approve-all"),
          [Effect.confirmPrompt "Permission mode" permissionPromptBody,
            Effect.appendEntry STATE_ENTRY_TYPE
              (if answer then "allow-all" else "approve-all"),
            Effect.setStatus "approval-mode"
              (modeStatusText (some (if answer then "allow-all" else "approve-all"))),
            Effect.notify
              ("Permission mode set to " ++ (if answer then "allow-all" else "approve-all"))
              "info"],
          none) := by
  cases answer <;> simp [gateStep, approvalModeCommand, persistMode]

/-- C7: `formatDuration` converts elapsed milliseconds to zero-padded
HH:MM:SS and clamps negative inputs to zero: 0 ms renders "00:00:00",
3661000 ms renders "01:01:01", and every negative input renders "00:00:00". -/
theorem c7_formatDuration_hhmmss_clamped :
    formatDuration 0 = "00:00:00" ∧ formatDuration 3661000 = "01:01:01" ∧
      ∀ ms : Int, ms < 0 → formatDuration ms = "00:00:00" := by
  refine ⟨by decide, by decide, ?_⟩
  intro ms h
  match ms with
  | Int.ofNat n => exact absurd h (not_lt.mpr (Int.ofNat_nonneg n))
  | Int.negSucc m =>
    have h0 : (Int.fdiv (Int.negSucc m) 1000).toNat = 0 := rfl
    simp only [formatDuration, h0]
    decide

theorem c7_formatDuration_hhmmss_clamped_witness :
    formatDuration (-5) = "00:00:00" :=
  c7_formatDuration_hhmmss_clamped.2.2 (-5) (by decide)

/-- C8: `formatToolInput` extracts the designated field for each known tool
name and falls back to `JSON.stringify(input, null, 2)` otherwise: "bash"
with command "ls" renders exactly "command: ls"; every unrecognized tool name
renders the JSON form of the whole input, which on the record with single
field x = 1 is the two-space-indented object text. -/
theorem c8_formatToolInput_known_and_fallback :
    formatToolInput "bash" [("command", JVal.str "ls")] = "command: ls" ∧
      (∀ toolName input, toolName ≠ "bash" → toolName ≠ "write" → toolName ≠ "edit" →
        toolName ≠ "read" → formatToolInput toolName input = jsonStringify input) ∧
      formatToolInput "mystery" [("x", JVal.num 1)] = "\x7b\n  \"x\": 1\n\x7d" := by
  refine ⟨by decide, ?_, ?_⟩
  · intro toolName input h1 h2 h3 h4
    simp [formatToolInput, h1, h2, h3, h4]
  · simp only [formatToolInput, jsonStringify, jsonStringifyVal, jsonStringifyFields]
    decide

theorem c8_formatToolInput_known_and_fallback_witness :
    formatToolInput "zzz" [("x", JVal.num 1)] = jsonStringify [("x", JVal.num 1)] :=
  c8_formatToolInput_known_and_fallback.2.1 "zzz" [("x", JVal.num 1)]
    (by decide) (by decide) (by decide) (by decide)

theorem stopTimer_props (st : UptimeState) (h : timerInv st) :
    (stopTimer st).live = [] ∧ (stopTimer st).timer = none ∧
      (stopTimer st).startTimeMs = st.startTimeMs ∧ (stopTimer st).nextId = st.nextId := by
  unfold timerInv at h
  cases ht : st.timer with
  | none =>
    rw [ht] at h
    simp at h
    simp [stopTimer, ht, h]
  | some hh =>
    rw [ht] at h
    simp at h
    simp [stopTimer, ht, h]

theorem startTimer_props (now : Int) (st : UptimeState) (h : timerInv st) :
    timerInv (startTimer now st).1 ∧ (startTimer now st).1.live.length ≤ 1 ∧
      (startTimer now st).1.startTimeMs = st.startTimeMs ∧
      ((startTimer now st).1.timer).isSome = true := by
  obtain ⟨h1, h2, h3, h4⟩ := stopTimer_props st h
  unfold startTimer timerInv
  simp [h1, h3]

/-- C9: every start-display invocation cancels the existing interval timer
before arming a new one, so the timer-bookkeeping invariant is preserved by
every uptime event and at most one interval timer is ever live; the start
timestamp is never mutated, and a session switch always leaves a timer armed
(restarting the display without resetting the elapsed time base). -/
theorem c9_uptime_timer_unique_and_start_fixed (e : UptimeEvent) (st : UptimeState)
    (h : timerInv st) :
    timerInv (uptimeStep e st).1 ∧ (uptimeStep e st).1.live.length ≤ 1 ∧
      (uptimeStep e st).1.startTimeMs = st.startTimeMs ∧
      ∀ now, e = UptimeEvent.sessionSwitch now →
        ((uptimeStep e st).1.timer).isSome = true := by
  cases e with
  | sessionStart now =>
    obtain ⟨h1, h2, h3, h4⟩ := startTimer_props now st h
    exact ⟨h1, h2, h3, fun _ heq => by cases heq⟩
  | sessionSwitch now =>
    obtain ⟨h1, h2, h3, h4⟩ := startTimer_props now st h
    exact ⟨h1, h2, h3, fun _ _ => h4⟩
  | sessionShutdown =>
    obtain ⟨h1, h2, h3, h4⟩ := stopTimer_props st h
    refine ⟨?_, ?_, h3, fun _ heq => by cases heq⟩
    · simp [uptimeStep, timerInv, h1, h2]
    · simp [uptimeStep, h1]
  | uptimeCommand now =>
    refine ⟨h, ?_, rfl, fun _ heq => by cases heq⟩
    unfold timerInv at h
    cases ht : st.timer <;> rw [ht] at h <;> simp [uptimeStep, h]

theorem c9_uptime_timer_unique_and_start_fixed_witness :
    timerInv (uptimeStep (UptimeEvent.sessionSwitch 5) ⟨0, some 0, [0], 1⟩).1 ∧
      (uptimeStep (UptimeEvent.sessionSwitch 5) ⟨0, some 0, [0], 1⟩).1.live.length ≤ 1 ∧
      (uptimeStep (UptimeEvent.sessionSwitch 5) ⟨0, some 0, [0], 1⟩).1.startTimeMs =
        UptimeState.startTimeMs ⟨0, some 0, [0], 1⟩ ∧
      ∀ now, UptimeEvent.sessionSwitch 5 = UptimeEvent.sessionSwitch now →
        ((uptimeStep (UptimeEvent.sessionSwitch 5) ⟨0, some 0, [0], 1⟩).1.timer).isSome =
          true :=
  c9_uptime_timer_unique_and_start_fixed (UptimeEvent.sessionSwitch 5) ⟨0, some 0, [0], 1⟩
    (by decide)

theorem validPolicy_orElse (a b : Option String) (ha : validPolicy a) (hb : validPolicy b) :
    validPolicy (a.orElse (fun _ => b)) := by
  cases a with
  | none => rw [Option.none_orElse']; exact hb
  | some s => rw [Option.some_orElse']; exact ha

theorem entryPolicy_validPolicy (e : Entry) : validPolicy (entryPolicy e) := by
  unfold entryPolicy
  split
  · next hc => rcases hc.2.2 with h | h <;> simp [validPolicy, h]
  · simp [validPolicy]

theorem scanBranch_validPolicy (branch : List Entry) :
    ∀ r, validPolicy r → validPolicy (scanBranch branch r) := by
  induction branch with
  | nil => intro r hr; simpa [scanBranch] using hr
  | cons e rest ih =>
    intro r hr
    rw [scanBranch_cons]
    exact ih _ (validPolicy_orElse _ _ (entryPolicy_validPolicy e) hr)

theorem restore_validPolicy (branch : List Entry) (mode : Option String)
    (h : validPolicy mode) : validPolicy (restoreModeFromBranch branch mode).1 := by
  unfold restoreModeFromBranch
  exact validPolicy_orElse _ _ (scanBranch_validPolicy branch none (Or.inl rfl)) h

theorem ensure_validPolicy (hasUI a : Bool) (mode : Option String) (h : validPolicy mode) :
    validPolicy (ensureModeSelected hasUI a mode).1 := by
  cases mode with
  | some s => simpa [ensureModeSelected] using h
  | none =>
    by_cases hu : hasUI
    · cases a <;> simp [ensureModeSelected, hu, validPolicy]
    · simp [ensureModeSelected, hu, validPolicy]

theorem toolCallHandler_fst (hasUI a1 a2 : Bool) (ev : ToolCallEvent) (mode : Option String) :
    (toolCallHandler hasUI a1 a2 ev mode).1 =
      (if mode = none then ensureModeSelected hasUI a1 mode else (mode, [])).1 := by
  simp only [toolCallHandler]
  split <;> (repeat' split) <;> rfl

theorem toolCall_validPolicy (hasUI a1 a2 : Bool) (ev : ToolCallEvent) (mode : Option String)
    (h : validPolicy mode) : validPolicy (toolCallHandler hasUI a1 a2 ev mode).1 := by
  rw [toolCallHandler_fst]
  cases mode with
  | none => simpa using ensure_validPolicy hasUI a1 none h
  | some s => simpa using h

/-- C10: the branch scan skips any entry whose payload is missing or whose
mode field is not exactly allow-all or approve-all (the scan result is as if
the entry were absent), and after every gate operation the in-memory policy
is unset or one of the two enumerated values. -/
theorem c10_scan_skips_invalid_and_policy_stays_valid :
    (∀ e rest r, e.data.bind EntryData.mode ≠ some "allow-all" →
        e.data.bind EntryData.mode ≠ some "approve-all" →
        scanBranch (e :: rest) r = scanBranch rest r) ∧
      ∀ hasUI op mode, validPolicy mode → validPolicy (gateStep hasUI op mode).1 := by
  constructor
  · intro e rest r h1 h2
    rw [scanBranch_cons]
    have hp : entryPolicy e = none := by
      unfold entryPolicy
      split
      · next hc => exact absurd hc.2.2 (by simp [h1, h2])
      · rfl
    rw [hp, Option.none_orElse']
  · intro hasUI op mode hmode
    cases op with
    | sessionStart branch =>
      have hr := restore_validPolicy branch mode hmode
      simp only [gateStep, onSessionStart]
      split <;> simpa using hr
    | sessionTree branch => simpa [gateStep] using restore_validPolicy branch mode hmode
    | sessionFork branch => simpa [gateStep] using restore_validPolicy branch mode hmode
    | inputEvent a =>
      cases mode with
      | none => simpa [gateStep, onInput] using ensure_validPolicy hasUI a none hmode
      | some s => simpa [gateStep, onInput] using hmode
    | toolCall ev a1 a2 =>
      simpa [gateStep] using toolCall_validPolicy hasUI a1 a2 ev mode hmode
    | approvalModeCmd a =>
      by_cases hu : hasUI
      · cases a <;> simp [gateStep, approvalModeCommand, hu, validPolicy]
      · simpa [gateStep, approvalModeCommand, hu] using hmode

theorem c10_scan_skips_invalid_and_policy_stays_valid_witness :
    scanBranch (Entry.mk "custom" STATE_ENTRY_TYPE (some ⟨some "bogus"⟩) :: [allowAllEntry])
        none = scanBranch [allowAllEntry] none ∧
      validPolicy (gateStep false (GateOp.sessionStart [allowAllEntry]) none).1 :=
  ⟨c10_scan_skips_invalid_and_policy_stays_valid.1
      (Entry.mk "custom" STATE_ENTRY_TYPE (some ⟨some "bogus"⟩)) [allowAllEntry] none
      (by decide) (by decide),
    c10_scan_skips_invalid_and_policy_stays_valid.2 false
      (GateOp.sessionStart [allowAllEntry]) none (by decide)⟩
